import Mathlib

/-!
Verification of the reference-count code generator (`refcounting.rs`) of the
Roc compiler LLVM backend.

The development shallowly embeds the generator:

* the arithmetic performed by the emitted decrement helper and the inline
  increment sequence is modelled over mathematical integers with explicit
  two's-complement wrapping at the pointer width;
* the bodies emitted for list / string / dict helpers are modelled as the
  event trace the generated code performs at run time, as a function of the
  wrapper's length slot;
* the layout type, the recursive-union helper body builder, the memoizing
  emitters (module + layout-id interner state) and the layout dispatcher are
  modelled as executable Lean functions translated from the Rust source.

External collaborators (the layout-id interner, the layout model's
`contains_refcounted` / `is_refcounted` queries, the list/dict element
iteration primitives) live outside the translated file; where their behaviour
matters they are modelled from the specification and marked as such.
-/

namespace RocRefcount

/-! ### Two's-complement integer model

The refcount word is an integer of the target pointer width (`ptr_bytes`
bytes, hence `8 * ptr_bytes` bits), interpreted with signed semantics. -/

/-- The most negative signed value of a `w`-bit word (`INT_MIN`). -/
def intMin (w : Nat) : Int := -(2 ^ (w - 1))

/-- The most positive signed value of a `w`-bit word (`INT_MAX`). -/
def intMax (w : Nat) : Int := 2 ^ (w - 1) - 1

/-- Wrap an unbounded integer to the signed `w`-bit range (two's complement). -/
def wrapSigned (w : Nat) (x : Int) : Int :=
  (x + 2 ^ (w - 1)) % 2 ^ w - 2 ^ (w - 1)

/-- LLVM's `sadd.with.overflow` intrinsic on `w`-bit words: the wrapped sum
together with the flag telling whether signed overflow occurred. -/
def saddWithOverflow (w : Nat) (a b : Int) : Int × Bool :=
  let r := wrapSigned w (a + b)
  (r, decide (r ≠ a + b))

/-- Reinterpret an unsigned `w`-bit value (a `Nat` below `2 ^ w`) as a signed
`w`-bit integer. -/
def toSigned (w : Nat) (x : Nat) : Int :=
  if x < 2 ^ (w - 1) then (x : Int) else (x : Int) - 2 ^ w

/-- REFCOUNT_MAX from the source: the STATIC sentinel value `0`. -/
def REFCOUNT_MAX : Nat := 0

/-- The `refcount_1` constant: the most negative value of the refcount word,
encoding a reference count of exactly 1.  The source panics on a `ptr_bytes`
outside 1, 2, 4, 8 ("Invalid target"); the panic is modelled as `none`. -/
def refcount_1 (ptr_bytes : Nat) : Option Int :=
  match ptr_bytes with
  | 1 => some (intMin 8)
  | 2 => some (intMin 16)
  | 4 => some (intMin 32)
  | 8 => some (intMin 64)
  | _ => none

/-- The memory effect of one run of an emitted refcount-word operation:
which address was handed to `free` (if any) and which value was stored back
into the refcount word (if any). -/
structure RcOutcome where
  freed_addr : Option Int
  stored : Option Int
deriving DecidableEq

/-- Runtime behaviour of the shared decrement helper body
(`_build_decrement_function_body`) on a refcount word holding `refcount`,
located at byte address `rc_addr`.  `extra_bytes` is the alignment class the
helper was emitted for, `leak` the leak-detection build flag.

Translated from the source: an early return when the word equals the STATIC
sentinel `0`; otherwise `sadd.with.overflow (refcount, -1)`; on overflow the
allocation is freed (unless `leak`), at the refcount word itself when the
alignment equals `ptr_bytes`, one word earlier when it equals
`2 * ptr_bytes`, and any other alignment is `unreachable!` (modelled as
`none`); without overflow the word is stored back through a select that keeps
the old value when it equals the sentinel. -/
def build_decrement_function_body (ptr_bytes extra_bytes : Nat) (leak : Bool)
    (rc_addr : Int) (refcount : Int) : Option RcOutcome :=
  if refcount = 0 then
    some { freed_addr := none, stored := none }
  else
    let add_with_overflow := saddWithOverflow (8 * ptr_bytes) refcount (-1)
    if add_with_overflow.2 then
      if leak then some { freed_addr := none, stored := none }
      else if extra_bytes = ptr_bytes then
        some { freed_addr := some rc_addr, stored := none }
      else if extra_bytes = 2 * ptr_bytes then
        some { freed_addr := some (rc_addr - (ptr_bytes : Int)), stored := none }
      else none
    else
      some { freed_addr := none,
             stored := some (if refcount = 0 then refcount else add_with_overflow.1) }

/-- Runtime behaviour of the inline increment sequence
(`PointerToRefcount::increment`) on a refcount word holding `refcount`:
compare against the STATIC sentinel `0`; if equal branch over the store,
otherwise store the (wrapping) sum `refcount + amount`.  The sequence
contains no call and no free. -/
def increment_body (w : Nat) (refcount amount : Int) : RcOutcome :=
  if refcount = 0 then { freed_addr := none, stored := none }
  else { freed_addr := none, stored := some (wrapSigned w (refcount + amount)) }

/-! ### Container helper bodies as run-time event traces -/

/-- Events performed by the emitted list helper body. -/
inductive ListEvent where
  | visitElem (index : Nat)
  | containerModify
deriving DecidableEq

/-- Runtime trace of the body emitted by `modify_refcount_list_help` on a
list wrapper whose length slot holds `len`.  Translated from the source: an
unsigned `len > 0` comparison guards the whole modification block; inside it,
when the element layout contains refcounted data, the element loop
(`incrementing_elem_loop`, an external primitive that visits each index
`i < len` exactly once, modelled from the spec) applies the per-element
modify, and only then is the container's own refcount modified. -/
def modify_refcount_list_body (element_contains_refcounted : Bool) (len : Nat) :
    List ListEvent :=
  if 0 < len then
    (if element_contains_refcounted then (List.range len).map ListEvent.visitElem else [])
      ++ [ListEvent.containerModify]
  else []

/-- Events performed by the emitted dict/set helper body.  The element visit
(`dict_elements_rc`, an external primitive) is a single opaque event. -/
inductive DictEvent where
  | visitElements
  | containerModify
deriving DecidableEq

/-- Runtime trace of the body emitted by `modify_refcount_dict_help` on a
dict wrapper whose length slot holds the unsigned value `len`.  Translated
from the source: the guard is a *signed* `len > 0` comparison
(`IntPredicate::SGT`); inside the modification block the element visitor runs
when key or value layout contains refcounted data, then the container's own
refcount is modified. -/
def modify_refcount_dict_body (w : Nat) (kv_contains_refcounted : Bool) (len : Nat) :
    List DictEvent :=
  if 0 < toSigned w len then
    (if kv_contains_refcounted then [DictEvent.visitElements] else [])
      ++ [DictEvent.containerModify]
  else []

/-- Events performed by the emitted string helper body. -/
inductive StrEvent where
  | containerModify
deriving DecidableEq

/-- Runtime trace of the body emitted by `modify_refcount_str_help` on a
string wrapper whose length slot holds the unsigned value `len`.  Translated
from the source: the length is compared with signed `> 0`
(small strings have the high bit set, making them negative), and only in the
positive case is the refcount derived from the data pointer modified. -/
def modify_refcount_str_body (w : Nat) (len : Nat) : List StrEvent :=
  if 0 < toSigned w len then [StrEvent.containerModify] else []

/-! ### The layout model

Mirror of `roc_mono::layout::{Layout, Builtin, UnionLayout, MemoryMode}`,
restricted to the shape the refcounting module consumes.  The closure layout
(`ClosureLayout`) is represented by its block-of-memory layout, which is all
`modify_refcount_layout_build_function` uses of it. -/

/-- `MemoryMode` of a list layout. -/
inductive MemoryMode where
  | refcounted
  | byValue
deriving DecidableEq

mutual

/-- Mirror of `Layout`. -/
inductive Layout where
  | builtin (b : RBuiltin)
  | struct (fields : List Layout)
  | union (u : UnionLayout)
  | recursivePointer
  | closure (args : List Layout) (captured : Layout) (ret : Layout)
  | functionPointer (args : List Layout) (ret : Layout)
  | pointer (l : Layout)
  | phantomEmptyStruct

/-- Mirror of `Builtin` (scalar builtins other than `Int64`/`Float64` behave
identically for refcounting and are represented by those two). -/
inductive RBuiltin where
  | int64
  | float64
  | str
  | list (mode : MemoryMode) (elem : Layout)
  | dict (key : Layout) (value : Layout)
  | set (elem : Layout)

/-- Mirror of `UnionLayout`. -/
inductive UnionLayout where
  | nonRecursive (tags : List (List Layout))
  | recursive (tags : List (List Layout))
  | nullableWrapped (nullableId : Nat) (otherTags : List (List Layout))
  | nullableUnwrapped (nullableId : Bool) (otherFields : List Layout)
  | nonNullableUnwrapped (fields : List Layout)

end

/-- Modelled from the spec: the layout model's `is_refcounted` query (it
lives in the external layout crate).  Refcounted heads are refcounted lists,
strings, dicts and sets, recursive tag unions and recursion pointers. -/
def Layout.is_refcounted : Layout → Bool
  | .builtin (.list .refcounted _) => true
  | .builtin .str => true
  | .builtin (.dict _ _) => true
  | .builtin (.set _) => true
  | .union (.nonRecursive _) => false
  | .union _ => true
  | .recursivePointer => true
  | _ => false

mutual

/-- Modelled from the spec: the layout model's `contains_refcounted` query
(it lives in the external layout crate) — whether a value of the layout
transitively holds refcounted data. -/
def Layout.contains_refcounted : Layout → Bool
  | .builtin (.list .refcounted _) => true
  | .builtin .str => true
  | .builtin (.dict _ _) => true
  | .builtin (.set _) => true
  | .builtin _ => false
  | .struct fields => fieldsContainRefcounted fields
  | .union u => unionContainsRefcounted u
  | .recursivePointer => true
  | .closure _ captured _ => captured.contains_refcounted
  | .functionPointer _ _ => false
  | .pointer _ => false
  | .phantomEmptyStruct => false

/-- Auxiliary of `Layout.contains_refcounted` for a union layout. -/
def unionContainsRefcounted : UnionLayout → Bool
  | .nonRecursive tags => tagsContainRefcounted tags
  | _ => true

/-- Auxiliary of `Layout.contains_refcounted` for a tag list. -/
def tagsContainRefcounted : List (List Layout) → Bool
  | [] => false
  | t :: rest => fieldsContainRefcounted t || tagsContainRefcounted rest

/-- Auxiliary of `Layout.contains_refcounted` for a field list. -/
def fieldsContainRefcounted : List Layout → Bool
  | [] => false
  | l :: rest => l.contains_refcounted || fieldsContainRefcounted rest

end

mutual

/-- Boolean structural equality on layouts (hash/equality of layouts is
provided externally in the source; the interner only needs a decidable
equality test). -/
def layoutBeq : Layout → Layout → Bool
  | .builtin a, .builtin b => rbuiltinBeq a b
  | .struct a, .struct b => fieldsBeq a b
  | .union a, .union b => unionBeq a b
  | .recursivePointer, .recursivePointer => true
  | .closure a1 c1 r1, .closure a2 c2 r2 =>
      fieldsBeq a1 a2 && layoutBeq c1 c2 && layoutBeq r1 r2
  | .functionPointer a1 r1, .functionPointer a2 r2 => fieldsBeq a1 a2 && layoutBeq r1 r2
  | .pointer a, .pointer b => layoutBeq a b
  | .phantomEmptyStruct, .phantomEmptyStruct => true
  | _, _ => false

/-- Boolean structural equality on builtin layouts. -/
def rbuiltinBeq : RBuiltin → RBuiltin → Bool
  | .int64, .int64 => true
  | .float64, .float64 => true
  | .str, .str => true
  | .list m1 e1, .list m2 e2 => (m1 = m2) && layoutBeq e1 e2
  | .dict k1 v1, .dict k2 v2 => layoutBeq k1 k2 && layoutBeq v1 v2
  | .set e1, .set e2 => layoutBeq e1 e2
  | _, _ => false

/-- Boolean structural equality on union layouts. -/
def unionBeq : UnionLayout → UnionLayout → Bool
  | .nonRecursive a, .nonRecursive b => tagsBeq a b
  | .recursive a, .recursive b => tagsBeq a b
  | .nullableWrapped i1 a, .nullableWrapped i2 b => (i1 = i2) && tagsBeq a b
  | .nullableUnwrapped i1 a, .nullableUnwrapped i2 b => (i1 = i2) && fieldsBeq a b
  | .nonNullableUnwrapped a, .nonNullableUnwrapped b => fieldsBeq a b
  | _, _ => false

/-- Boolean structural equality on tag lists. -/
def tagsBeq : List (List Layout) → List (List Layout) → Bool
  | [], [] => true
  | t :: ts, u :: us => fieldsBeq t u && tagsBeq ts us
  | _, _ => false

/-- Boolean structural equality on field lists. -/
def fieldsBeq : List Layout → List Layout → Bool
  | [], [] => true
  | a :: rest1, b :: rest2 => layoutBeq a b && fieldsBeq rest1 rest2
  | _, _ => false

end

/-! ### The recursive-union helper body (`build_rec_union_help`) -/

/-- Instructions emitted into one tag case of a recursive-union helper, in
emission order.  `selfTailCall i flag` records the call back into the same
helper for the recursive field at index `i`, with `flag` the value passed to
`set_tail_call`. -/
inductive REvent where
  | loadRecPointer (fieldIndex : Nat)
  | loadField (fieldIndex : Nat)
  | selfModify
  | modifyChild (fieldIndex : Nat)
  | selfTailCall (fieldIndex : Nat) (tailCallFlag : Bool)
deriving DecidableEq

/-- The `if let Layout::RecursivePointer = field_layout` test of the source. -/
def isRecursivePointer : Layout → Bool
  | .recursivePointer => true
  | _ => false

/-- The field scan of one tag case: walking the fields in order (starting at
index `i`), emit a load for every recursion pointer (deferring its index)
and for every other field containing refcounted data (deferring its index).
Returns (loads in emission order, deferred non-recursive indices, deferred
recursive indices), mirroring the `deferred_nonrec` / `deferred_rec` vectors
of the source. -/
def collectFields : Nat → List Layout → List REvent × List Nat × List Nat
  | _, [] => ([], [], [])
  | i, fl :: rest =>
    let r := collectFields (i + 1) rest
    if isRecursivePointer fl then (REvent.loadRecPointer i :: r.1, r.2.1, i :: r.2.2)
    else if fl.contains_refcounted then (REvent.loadField i :: r.1, i :: r.2.1, r.2.2)
    else r

/-- The event list of one tag case: the deferred loads, then the refcount
modification of the current cell, then the deferred non-recursive children,
then the tail calls on the deferred recursive pointers (each call marked
with `set_tail_call(true)`). -/
def rec_union_case_events (field_layouts : List Layout) : List REvent :=
  let c := collectFields 0 field_layouts
  c.1 ++ REvent.selfModify ::
    (c.2.1.map REvent.modifyChild ++ c.2.2.map (fun i => REvent.selfTailCall i true))

/-- Whether a tag has any field that is or contains anything refcounted
(tags failing this are skipped by the case loop). -/
def tag_contains_refcounted (field_layouts : List Layout) : Bool :=
  field_layouts.any (fun x => x.is_refcounted || x.contains_refcounted)

/-- The `switch_needed` computation of `build_rec_union_help`: true when some
tag has no refcounted fields. -/
def switch_needed (tags : List (List Layout)) : Bool :=
  tags.any (fun field_layouts => !tag_contains_refcounted field_layouts)

/-- Rc mode of a helper request. -/
inductive Mode where
  | Inc
  | Dec
deriving DecidableEq

/-- Shape of the function body emitted by `build_rec_union_help`:
whether a null check guards the entry, the emitted tag cases (tag id and the
case's events, in jump-table order), whether a switch on the tag word is
emitted, and the events of the merge block (the no-refcounted-fields path). -/
structure RecUnionBody where
  hasNullCheck : Bool
  tagCases : List (Nat × List REvent)
  usesSwitch : Bool
  mergeEvents : List REvent
deriving DecidableEq

/-- The body builder `build_rec_union_help`, translated from the source: a
null-check-and-return prologue when `is_nullable`; a case for every tag with
refcounted fields (built by `rec_union_case_events`, collected and then
reversed); when exactly one case exists and no switch is needed, an
unconditional jump into that case, otherwise a switch on the tag word whose
merge block modifies the cell's own refcount.  The mode only picks block
names and is irrelevant to the emitted shape. -/
def build_rec_union_help (_mode : Mode) (tags : List (List Layout)) (is_nullable : Bool) :
    RecUnionBody :=
  let tagCases := ((tags.enum.filter (fun p => tag_contains_refcounted p.2)).map
      (fun p => (p.1, rec_union_case_events p.2))).reverse
  let single := tagCases.length == 1 && !switch_needed tags
  { hasNullCheck := is_nullable
    tagCases := tagCases
    usesSwitch := !single
    mergeEvents := if single then [] else [REvent.selfModify] }

/-- The dispatch of `modify_refcount_layout_build_function` for the four
recursive union variants: the tag lists and the `is_nullable` flag passed to
`build_rec_union` (the `NonRecursive` variant goes to
`modify_refcount_union` instead). -/
def rec_union_fields_and_nullable : UnionLayout → Option (List (List Layout) × Bool)
  | .nullableWrapped _ tags => some (tags, true)
  | .nullableUnwrapped _ other_fields => some ([other_fields.drop 1], true)
  | .nonNullableUnwrapped fields => some ([fields], true)
  | .recursive tags => some (tags, false)
  | .nonRecursive _ => none

/-- The nullable union variants (the ones whose value may be a null
pointer). -/
def isNullableVariant : UnionLayout → Bool
  | .nullableWrapped _ _ => true
  | .nullableUnwrapped _ _ => true
  | _ => false

/-! ### Helper naming and the layout-id interner -/

/-- The two canonical symbols used for helper naming. -/
inductive Sym where
  | DEC
  | INC
deriving DecidableEq

/-- Printed form of the canonical symbols. -/
def symStr : Sym → String
  | .DEC => "Dec"
  | .INC => "Inc"

/-- State of the layout-id interner: the interned (symbol, layout) keys in
insertion order; a key's id is its position. -/
abbrev LayoutIds := List (Sym × Layout)

/-- Equality test on interner keys. -/
def keyBeq (a b : Sym × Layout) : Bool := (a.1 = b.1) && layoutBeq a.2 b.2

/-- Position of an interned key, if present. -/
def findLayoutId : LayoutIds → Sym → Layout → Option Nat
  | [], _, _ => none
  | e :: rest, s, l =>
    if keyBeq e (s, l) then some 0
    else (findLayoutId rest s l).map (· + 1)

/-- Modelled from the spec: the external layout-id interner
(`LayoutIds::get`) — canonicalize a layout under a symbol to an integer id,
allocating the next id on first sight and returning the existing id
thereafter. -/
def layout_ids_get (ids : LayoutIds) (s : Sym) (l : Layout) : LayoutIds × Nat :=
  match findLayoutId ids s l with
  | some i => (ids, i)
  | none => (ids ++ [(s, l)], ids.length)

/-- Modelled from the spec: `LayoutId::to_symbol_string` — the helper name
derived from a symbol and a numeric layout id, carrying the id as suffix. -/
def to_symbol_string (s : Sym) (id : Nat) : String :=
  "#" ++ symStr s ++ "_" ++ toString id

/-- `function_name_from_mode`, translated from the source: the layout id is
always interned under the DEC symbol regardless of the requested mode
(deliberately, per the source comment), then stringified under the INC or
DEC symbol.  Returns the updated interner, the picked static name and the
helper's function name. -/
def function_name_from_mode (layout_ids : LayoutIds) (if_inc if_dec : String)
    (layout : Layout) (mode : Mode) : LayoutIds × String × String :=
  let r := layout_ids_get layout_ids Sym.DEC layout
  match mode with
  | .Inc => (r.1, if_inc, to_symbol_string Sym.INC r.2)
  | .Dec => (r.1, if_dec, to_symbol_string Sym.DEC r.2)

/-! ### Memoizing emitters (module state) -/

/-- Body descriptors of the helper functions added to the module. -/
inductive HelperBody where
  | listHelper (element_layout : Layout)
  | recUnionHelper (body : RecUnionBody)

/-- The compilation module as a name-to-function association (the order of
`add_function` calls); `get_function` is lookup by name. -/
def get_function : List (String × HelperBody) → String → Option HelperBody
  | [], _ => none
  | f :: rest, name => if f.1 = name then some f.2 else get_function rest name

/-- Emitter state threaded through the memoizing emitters: the layout-id
interner and the module under construction. -/
structure EmitState where
  layout_ids : LayoutIds
  module : List (String × HelperBody)

/-- The memoization pattern shared verbatim by every helper emitter of the
source (`modify_refcount_list`, `modify_refcount_str`,
`modify_refcount_dict`, `modify_refcount_struct`, `build_rec_union`):
derive the helper name, look it up in the module; on a hit return the
existing function value with the module untouched, on a miss add the header
(and the body, `body` here) under that name. -/
def memoized_emit (st : EmitState) (if_inc if_dec : String) (key : Layout)
    (mode : Mode) (body : HelperBody) : EmitState × String × HelperBody :=
  let named := function_name_from_mode st.layout_ids if_inc if_dec key mode
  let fn_name := named.2.2
  match get_function st.module fn_name with
  | some function_value =>
      ({ layout_ids := named.1, module := st.module }, fn_name, function_value)
  | none =>
      ({ layout_ids := named.1, module := st.module ++ [(fn_name, body)] }, fn_name, body)

/-- The `build_rec_union` emitter, translated from the source.  The
memoization key is `Layout::Union(UnionLayout::Recursive(fields))` — built
from the tag field layouts alone, whichever recursive variant was
dispatched.  On a module hit the existing function is returned unchanged;
otherwise the header is added and the body built with the requested
`is_nullable` flag. -/
def build_rec_union (st : EmitState) (mode : Mode) (fields : List (List Layout))
    (is_nullable : Bool) : EmitState × String × HelperBody :=
  memoized_emit st "increment_rec_union" "decrement_rec_union"
    (Layout.union (UnionLayout.recursive fields)) mode
    (HelperBody.recUnionHelper (build_rec_union_help mode fields is_nullable))

/-- The `modify_refcount_list` emitter, translated from the source: the same
memoization pattern, keyed by the list layout itself. -/
def modify_refcount_list (st : EmitState) (mode : Mode) (layout element_layout : Layout) :
    EmitState × String × HelperBody :=
  memoized_emit st "increment_list" "decrement_list" layout mode
    (HelperBody.listHelper element_layout)

/-- The memoization name of the rec-union helper that `build_rec_union`
would use from state `st`. -/
def rec_union_fn_name (st : EmitState) (fields : List (List Layout)) (mode : Mode) : String :=
  (function_name_from_mode st.layout_ids "increment_rec_union" "decrement_rec_union"
    (Layout.union (UnionLayout.recursive fields)) mode).2.2

/-- The memoization name of the list helper that `modify_refcount_list`
would use from state `st`. -/
def list_fn_name (st : EmitState) (layout : Layout) (mode : Mode) : String :=
  (function_name_from_mode st.layout_ids "increment_list" "decrement_list" layout mode).2.2

/-! ### The non-recursive union body and the layout dispatcher -/

/-- The field loop of one case of `modify_refcount_union_help`: a naked
`RecursivePointer` field is a `panic!` (modelled as `Except.error` with the
source's message); every other field containing refcounted data is modified
(recorded by index). -/
def unionCaseFields : Nat → List Layout → Except String (List Nat)
  | _, [] => .ok []
  | i, fl :: rest =>
    if isRecursivePointer fl then
      .error "non-recursive tag unions cannot contain naked recursion pointers!"
    else
      (unionCaseFields (i + 1) rest).map
        (fun tail => if fl.contains_refcounted then i :: tail else tail)

/-- The case loop of `modify_refcount_union_help`: tags whose fields contain
nothing refcounted are skipped; the others produce a case listing the
modified field indices. -/
def unionCases : Nat → List (List Layout) → Except String (List (Nat × List Nat))
  | _, [] => .ok []
  | tag_id, field_layouts :: rest =>
    if !tag_contains_refcounted field_layouts then unionCases (tag_id + 1) rest
    else do
      let fieldIdxs ← unionCaseFields 0 field_layouts
      let more ← unionCases (tag_id + 1) rest
      .ok ((tag_id, fieldIdxs) :: more)

/-- Body builder of the non-recursive union helper
(`modify_refcount_union_help`), with the naked-recursion-pointer panic
modelled as an error. -/
def modify_refcount_union_help (tags : List (List Layout)) :
    Except String (List (Nat × List Nat)) :=
  unionCases 0 tags

/-- The `WhenRecursive` context. -/
inductive WhenRecursive where
  | unreachable
  | loop (union_layout : UnionLayout)

/-- Which helper a dispatched layout resolves to (the stateless image of the
returned `FunctionValue`). -/
inductive HelperKind where
  | listHelper (element_layout : Layout)
  | strHelper
  | dictHelper (key_layout value_layout : Layout)
  | structHelper (fields : List Layout)
  | recUnionHelper (tags : List (List Layout)) (is_nullable : Bool)
  | nonRecUnionHelper (tagCases : List (Nat × List Nat))

/-- The dispatcher `modify_refcount_layout_build_function`, translated from
the source.  `none` means no helper (the layout holds nothing refcounted);
`Except.error` models the `unreachable!` / `panic!` aborts.  The two
non-structural recursions of the source — a `Closure` relowered to a struct
layout and a `RecursivePointer` reconstituted to its enclosing union — spend
one unit of `fuel` (two units always suffice). -/
def modify_refcount_layout_build_function :
    Nat → WhenRecursive → Layout → Except String (Option HelperKind)
  | _, _, .builtin b =>
    match b with
    | .list .refcounted element_layout => .ok (some (.listHelper element_layout))
    | .list .byValue _ => .ok none
    | .set element_layout => .ok (some (.dictHelper (Layout.struct []) element_layout))
    | .dict key_layout value_layout => .ok (some (.dictHelper key_layout value_layout))
    | .str => .ok (some .strHelper)
    | _ => .ok none
  | _, _, .union u =>
    match u with
    | .nullableWrapped _ tags => .ok (some (.recUnionHelper tags true))
    | .nullableUnwrapped _ other_fields =>
        .ok (some (.recUnionHelper [other_fields.drop 1] true))
    | .nonNullableUnwrapped fields => .ok (some (.recUnionHelper [fields] true))
    | .recursive tags => .ok (some (.recUnionHelper tags false))
    | .nonRecursive tags =>
        (modify_refcount_union_help tags).map (fun cs => some (.nonRecUnionHelper cs))
  | fuel, when_recursive, .closure args captured ret =>
    if captured.contains_refcounted then
      match fuel with
      | 0 => .error "fuel exhausted"
      | fuel1 + 1 =>
        modify_refcount_layout_build_function fuel1 when_recursive
          (.struct [Layout.functionPointer (args ++ [captured]) ret, captured])
    else .ok none
  | _, _, .struct fields => .ok (some (.structHelper fields))
  | _, _, .phantomEmptyStruct => .ok none
  | fuel, when_recursive, .recursivePointer =>
    match when_recursive with
    | .unreachable => .error "recursion pointers should never be hashed directly"
    | .loop union_layout =>
      match fuel with
      | 0 => .error "fuel exhausted"
      | fuel1 + 1 =>
        modify_refcount_layout_build_function fuel1 when_recursive (.union union_layout)
  | _, _, .functionPointer _ _ => .ok none
  | _, _, .pointer _ => .ok none

/-! ## Theorems -/

/-! ### Arithmetic facts about the two's-complement model -/

theorem two_pow_w_eq (w : Nat) (hw : 0 < w) : (2 : Int) ^ w = 2 ^ (w - 1) * 2 := by
  conv_lhs => rw [show w = w - 1 + 1 by omega]
  rw [pow_succ]

theorem two_pow_pos_int (k : Nat) : (0 : Int) < 2 ^ k := by positivity

theorem wrapSigned_eq_self (w : Nat) (x : Int) (hw : 0 < w)
    (h1 : intMin w ≤ x) (h2 : x ≤ intMax w) : wrapSigned w x = x := by
  have hp := two_pow_pos_int (w - 1)
  have h2w := two_pow_w_eq w hw
  unfold intMin at h1
  unfold intMax at h2
  unfold wrapSigned
  have hmod : (x + 2 ^ (w - 1)) % 2 ^ w = x + 2 ^ (w - 1) :=
    Int.emod_eq_of_lt (by omega) (by omega)
  omega

theorem wrapSigned_underflow (w : Nat) (hw : 0 < w) :
    wrapSigned w (intMin w - 1) = intMax w := by
  have hp := two_pow_pos_int (w - 1)
  have h2w := two_pow_w_eq w hw
  have hx : intMin w - 1 + 2 ^ (w - 1) = -1 := by unfold intMin; ring
  have hm : (-1 : Int) % 2 ^ w = 2 ^ w - 1 := by
    have e1 : (-1 : Int) = 2 ^ w - 1 + 2 ^ w * (-1) := by ring
    rw [e1, Int.add_mul_emod_self_left]
    exact Int.emod_eq_of_lt (by omega) (by omega)
  unfold wrapSigned
  rw [hx, hm]
  unfold intMax
  omega

theorem sadd_neg_one_no_overflow (w : Nat) (r : Int) (hw : 0 < w)
    (hlo : intMin w ≤ r) (hhi : r ≤ intMax w) (hne : r ≠ intMin w) :
    saddWithOverflow w r (-1) = (r - 1, false) := by
  have hp := two_pow_pos_int (w - 1)
  have h1 : wrapSigned w (r + -1) = r + -1 := by
    apply wrapSigned_eq_self w _ hw
    · unfold intMin at *; omega
    · unfold intMax at *; omega
  simp only [saddWithOverflow, h1]
  norm_num
  ring

theorem sadd_neg_one_overflow (w : Nat) (hw : 0 < w) :
    saddWithOverflow w (intMin w) (-1) = (intMax w, true) := by
  have hp := two_pow_pos_int (w - 1)
  have h1 : wrapSigned w (intMin w + -1) = intMax w := by
    have e : intMin w + -1 = intMin w - 1 := by ring
    rw [e]
    exact wrapSigned_underflow w hw
  have hneq : intMax w ≠ intMin w + -1 := by
    unfold intMin intMax
    omega
  simp only [saddWithOverflow, h1]
  simp [hneq]

theorem intMin_neg (w : Nat) : intMin w < 0 := by
  have hp := two_pow_pos_int (w - 1)
  unfold intMin
  omega

/-! ### C1: the shared decrement helper body -/

/-- C1: applied to any refcount word value `r`, the decrement helper body
returns immediately with the word unchanged and no free when `r = 0`
(STATIC); otherwise it computes `r + (-1)` with signed-overflow detection;
on overflow (`r` was `INT_MIN`, refcount 1) it frees the allocation —
at the refcount word itself when the alignment class equals the pointer
width, one word earlier when it equals twice the pointer width — and
returns; otherwise it stores the decremented value back without freeing. -/
theorem C1_decrement_helper_body (ptr_bytes extra_bytes : Nat) (leak : Bool)
    (rc_addr r : Int) (hpb : 0 < ptr_bytes) (hleak : leak = false)
    (halign : extra_bytes = ptr_bytes ∨ extra_bytes = 2 * ptr_bytes)
    (hlo : intMin (8 * ptr_bytes) ≤ r) (hhi : r ≤ intMax (8 * ptr_bytes)) :
    (r = 0 →
      build_decrement_function_body ptr_bytes extra_bytes leak rc_addr r =
        some { freed_addr := none, stored := none }) ∧
    (r = intMin (8 * ptr_bytes) →
      build_decrement_function_body ptr_bytes extra_bytes leak rc_addr r =
        some { freed_addr :=
                 some (if extra_bytes = ptr_bytes then rc_addr
                       else rc_addr - (ptr_bytes : Int)),
               stored := none }) ∧
    (r ≠ 0 → r ≠ intMin (8 * ptr_bytes) →
      build_decrement_function_body ptr_bytes extra_bytes leak rc_addr r =
        some { freed_addr := none, stored := some (r - 1) }) := by
  subst hleak
  have hw : 0 < 8 * ptr_bytes := by omega
  refine ⟨?_, ?_, ?_⟩
  · intro h0
    simp [build_decrement_function_body, h0]
  · intro hmin
    have hne0 : r ≠ 0 := by
      have := intMin_neg (8 * ptr_bytes)
      omega
    rw [hmin] at hne0 ⊢
    simp only [build_decrement_function_body, if_neg hne0,
      sadd_neg_one_overflow (8 * ptr_bytes) hw, Bool.false_eq_true, if_false]
    rcases halign with h | h
    · subst h
      simp
    · subst h
      have hne : 2 * ptr_bytes ≠ ptr_bytes := by omega
      simp [hne]
  · intro hne0 hnemin
    simp only [build_decrement_function_body, if_neg hne0,
      sadd_neg_one_no_overflow (8 * ptr_bytes) r hw hlo hhi hnemin]
    simp [hne0]

/-- Witness for C1: on a 64-bit target with alignment class 16, decrementing
a word holding `INT_MIN` (count 1) at address 100 frees address 92 (one word
before the refcount word) and stores nothing. -/
theorem C1_decrement_helper_body_witness :
    build_decrement_function_body 8 16 false 100 (intMin 64) =
      some { freed_addr := some 92, stored := none } := by
  have h := (C1_decrement_helper_body 8 16 false 100 (intMin 64) (by decide) rfl
    (Or.inr rfl) (by decide) (by decide)).2.1 rfl
  simpa using h

/-! ### C5: the inline increment operation -/

/-- C5: the emitted inline increment leaves the refcount word unchanged
(no store) when it holds the STATIC sentinel `0`, and otherwise stores
`r + n`; in either case it frees nothing. -/
theorem C5_increment_body (w : Nat) (r n : Int) (hw : 0 < w) :
    (increment_body w r n).freed_addr = none ∧
    (r = 0 → increment_body w r n = { freed_addr := none, stored := none }) ∧
    (r ≠ 0 → increment_body w r n =
      { freed_addr := none, stored := some (wrapSigned w (r + n)) }) ∧
    (r ≠ 0 → intMin w ≤ r + n → r + n ≤ intMax w →
      increment_body w r n = { freed_addr := none, stored := some (r + n) }) := by
  refine ⟨?_, ?_, ?_, ?_⟩
  · unfold increment_body
    split <;> rfl
  · intro h
    simp [increment_body, h]
  · intro h
    simp [increment_body, h]
  · intro h h1 h2
    simp [increment_body, h, wrapSigned_eq_self w (r + n) hw h1 h2]

/-- Witness for C5: incrementing a non-static 64-bit count (`INT_MIN`,
i.e. count 1) by 2 stores `INT_MIN + 2` and frees nothing. -/
theorem C5_increment_body_witness :
    increment_body 64 (intMin 64) 2 =
      { freed_addr := none, stored := some (intMin 64 + 2) } :=
  (C5_increment_body 64 (intMin 64) 2 (by decide)).2.2.2
    (by decide) (by decide) (by decide)

/-! ### Signed reinterpretation of the unsigned length slot -/

theorem toSigned_small (w x : Nat) (h : x < 2 ^ (w - 1)) : toSigned w x = x := by
  simp [toSigned, h]

theorem toSigned_large (w x : Nat) (h1 : 2 ^ (w - 1) ≤ x) :
    toSigned w x = (x : Int) - 2 ^ w := by
  have h : ¬ x < 2 ^ (w - 1) := not_lt.mpr h1
  simp [toSigned, h]

theorem toSigned_large_nonpos (w x : Nat) (h1 : 2 ^ (w - 1) ≤ x) (h2 : x < 2 ^ w) :
    toSigned w x ≤ 0 := by
  rw [toSigned_large w x h1]
  have : (x : Int) < 2 ^ w := by exact_mod_cast h2
  omega

theorem toSigned_pos_of_small (w x : Nat) (h0 : 0 < x) (h : x < 2 ^ (w - 1)) :
    0 < toSigned w x := by
  rw [toSigned_small w x h]
  exact_mod_cast h0

/-! ### C4: the list helper body -/

/-- C4: the list helper performs no element visit and no container refcount
operation when the length slot is 0; for non-zero length and an element
layout containing refcounted data it visits every element index below the
length exactly once (and no other index); and the container's own refcount
operation comes after the whole element loop. -/
theorem C4_list_helper (element_contains_refcounted : Bool) (len : Nat) :
    (len = 0 → modify_refcount_list_body element_contains_refcounted len = []) ∧
    (0 < len → element_contains_refcounted = true →
      (∀ i, i < len →
        (modify_refcount_list_body element_contains_refcounted len).count
          (ListEvent.visitElem i) = 1) ∧
      (∀ i, len ≤ i →
        ListEvent.visitElem i ∉ modify_refcount_list_body element_contains_refcounted len)) ∧
    (0 < len → element_contains_refcounted = false →
      modify_refcount_list_body element_contains_refcounted len =
        [ListEvent.containerModify]) ∧
    (0 < len → ∃ pre,
      modify_refcount_list_body element_contains_refcounted len =
        pre ++ [ListEvent.containerModify] ∧
      ListEvent.containerModify ∉ pre) := by
  refine ⟨?_, ?_, ?_, ?_⟩
  · intro h
    simp [modify_refcount_list_body, h]
  · intro hlen her
    subst her
    constructor
    · intro i hi
      simp only [modify_refcount_list_body, if_pos hlen, if_pos rfl, if_true]
      rw [List.count_append]
      have hinj : Function.Injective ListEvent.visitElem := by
        intro a b h
        injection h
      have h1 : ((List.range len).map ListEvent.visitElem).count (ListEvent.visitElem i) = 1 := by
        rw [List.count_map_of_injective _ _ hinj i]
        exact List.count_eq_one_of_mem (List.nodup_range _) (List.mem_range.mpr hi)
      have h2 : ([ListEvent.containerModify]).count (ListEvent.visitElem i) = 0 := by
        simp
      omega
    · intro i hi
      simp only [modify_refcount_list_body, if_pos hlen, if_true]
      simp only [List.mem_append, List.mem_map, List.mem_range, List.mem_singleton]
      rintro (⟨a, ha, hae⟩ | hc)
      · injection hae with hae
        omega
      · exact ListEvent.noConfusion hc
  · intro hlen her
    subst her
    simp [modify_refcount_list_body, hlen]
  · intro hlen
    refine ⟨if element_contains_refcounted then
      (List.range len).map ListEvent.visitElem else [], ?_, ?_⟩
    · simp [modify_refcount_list_body, hlen]
    · split
      · simp
      · simp

/-- Witness for C4: on a refcounted-element list of length 2, each of the
two elements is visited exactly once and the container operation is the
final event. -/
theorem C4_list_helper_witness :
    (modify_refcount_list_body true 2).count (ListEvent.visitElem 1) = 1 ∧
    modify_refcount_list_body true 2 =
      [ListEvent.visitElem 0, ListEvent.visitElem 1, ListEvent.containerModify] :=
  ⟨((C4_list_helper true 2).2.1 (by decide) rfl).1 1 (by decide), by decide⟩

/-! ### C7: the string helper body -/

/-- C7: the string helper reinterprets the length slot as a signed
pointer-sized integer and performs no refcount operation whenever that
signed value is at most 0 (small or empty strings, exactly zero included);
for every strictly positive signed length it applies the refcount operation
derived from the data pointer.  Over the unsigned slot values below `2 ^ w`,
the skip happens exactly for 0 and for the values with the high bit set. -/
theorem C7_str_helper (w len : Nat) (hw : 0 < w) (hlen : len < 2 ^ w) :
    (toSigned w len ≤ 0 → modify_refcount_str_body w len = []) ∧
    (0 < toSigned w len → modify_refcount_str_body w len = [StrEvent.containerModify]) ∧
    (modify_refcount_str_body w len = [] ↔ len = 0 ∨ 2 ^ (w - 1) ≤ len) := by
  refine ⟨?_, ?_, ?_⟩
  · intro h
    simp [modify_refcount_str_body, not_lt.mpr h]
  · intro h
    simp [modify_refcount_str_body, h]
  · by_cases hs : len < 2 ^ (w - 1)
    · rw [modify_refcount_str_body, toSigned_small w len hs]
      constructor
      · intro h
        by_cases h0 : len = 0
        · exact Or.inl h0
        · exfalso
          have hpos : (0 : Int) < len := by
            have : 0 < len := Nat.pos_of_ne_zero h0
            exact_mod_cast this
          simp [hpos] at h
      · rintro (h0 | hbig)
        · simp [h0]
        · omega
    · push_neg at hs
      rw [modify_refcount_str_body, toSigned_large w len hs]
      have hle : (len : Int) - 2 ^ w ≤ 0 := by
        have : (len : Int) < 2 ^ w := by exact_mod_cast hlen
        omega
      simp only [if_neg (not_lt.mpr hle)]
      simp only [true_iff]
      exact Or.inr hs

/-- Witness for C7: a 64-bit big string of length 5 gets its refcount
modified; the helper applied to length 0 does nothing. -/
theorem C7_str_helper_witness :
    modify_refcount_str_body 64 5 = [StrEvent.containerModify] ∧
    modify_refcount_str_body 64 0 = [] :=
  ⟨(C7_str_helper 64 5 (by decide) (by decide)).2.1 (by decide),
   (C7_str_helper 64 0 (by decide) (by decide)).1 (by decide)⟩

/-! ### C6: the dict/set helper body -/

/-- Counterexample to C6 as stated: the length slot is compared with a
*signed* greater-than-zero predicate, so the unsigned length `2 ^ 63`
(high bit set) is non-zero and yet the helper skips both the element visit
and the container refcount operation. -/
theorem C6_counterexample :
    (2 ^ 63 : Nat) ≠ 0 ∧ modify_refcount_dict_body 64 true (2 ^ 63) = [] := by
  constructor
  · positivity
  · have hle : toSigned 64 (2 ^ 63) ≤ 0 :=
      toSigned_large_nonpos 64 (2 ^ 63) (by norm_num) (by norm_num)
    unfold modify_refcount_dict_body
    rw [if_neg (not_lt.mpr hle)]

/-- C6 (amended): the dict/set helper skips the element visit and the
container refcount operation exactly when the length slot *reinterpreted as
a signed pointer-sized integer* is at most 0 — that is, when the unsigned
length is 0 or has its high bit set; for lengths strictly between 0 and
`2 ^ (w - 1)` it visits the elements (when key or value layout contains
refcounted data) and then applies the container refcount operation. -/
theorem C6_dict_skip_condition (w : Nat) (kv_contains_refcounted : Bool) (len : Nat)
    (hw : 0 < w) (hlen : len < 2 ^ w) :
    ((len = 0 ∨ 2 ^ (w - 1) ≤ len) →
      modify_refcount_dict_body w kv_contains_refcounted len = []) ∧
    ((0 < len ∧ len < 2 ^ (w - 1)) →
      modify_refcount_dict_body w kv_contains_refcounted len =
        (if kv_contains_refcounted then [DictEvent.visitElements] else [])
          ++ [DictEvent.containerModify]) := by
  constructor
  · rintro (h0 | hbig)
    · subst h0
      simp [modify_refcount_dict_body, toSigned_small w 0 (by positivity)]
    · have h := toSigned_large_nonpos w len hbig hlen
      simp [modify_refcount_dict_body, not_lt.mpr h]
  · rintro ⟨h0, hsmall⟩
    have h := toSigned_pos_of_small w len h0 hsmall
    simp [modify_refcount_dict_body, h]

/-- Witness for the amended C6: a 64-bit dict of (small, positive) length 3
with refcounted contents visits its elements and then modifies its own
refcount; length `2 ^ 63` is skipped. -/
theorem C6_dict_skip_condition_witness :
    modify_refcount_dict_body 64 true 3 =
      [DictEvent.visitElements, DictEvent.containerModify] ∧
    modify_refcount_dict_body 64 true (2 ^ 63) = [] := by
  constructor
  · have h := (C6_dict_skip_condition 64 true 3 (by decide) (by decide)).2
      ⟨by decide, by decide⟩
    simpa using h
  · exact (C6_dict_skip_condition 64 true (2 ^ 63) (by decide) (by norm_num)).1
      (Or.inr (by norm_num))

/-! ### Reflexivity of the layout equality test -/

mutual

theorem layoutBeq_refl : ∀ a : Layout, layoutBeq a a = true
  | .builtin b => by simp [layoutBeq, rbuiltinBeq_refl b]
  | .struct fields => by simp [layoutBeq, fieldsBeq_refl fields]
  | .union u => by simp [layoutBeq, unionBeq_refl u]
  | .recursivePointer => by simp [layoutBeq]
  | .closure args c r => by
      simp [layoutBeq, fieldsBeq_refl args, layoutBeq_refl c, layoutBeq_refl r]
  | .functionPointer args r => by
      simp [layoutBeq, fieldsBeq_refl args, layoutBeq_refl r]
  | .pointer l => by simp [layoutBeq, layoutBeq_refl l]
  | .phantomEmptyStruct => by simp [layoutBeq]

theorem rbuiltinBeq_refl : ∀ b : RBuiltin, rbuiltinBeq b b = true
  | .int64 => by simp [rbuiltinBeq]
  | .float64 => by simp [rbuiltinBeq]
  | .str => by simp [rbuiltinBeq]
  | .list m e => by simp [rbuiltinBeq, layoutBeq_refl e]
  | .dict k v => by simp [rbuiltinBeq, layoutBeq_refl k, layoutBeq_refl v]
  | .set e => by simp [rbuiltinBeq, layoutBeq_refl e]

theorem unionBeq_refl : ∀ u : UnionLayout, unionBeq u u = true
  | .nonRecursive tags => by simp [unionBeq, tagsBeq_refl tags]
  | .recursive tags => by simp [unionBeq, tagsBeq_refl tags]
  | .nullableWrapped i tags => by simp [unionBeq, tagsBeq_refl tags]
  | .nullableUnwrapped i fs => by simp [unionBeq, fieldsBeq_refl fs]
  | .nonNullableUnwrapped fs => by simp [unionBeq, fieldsBeq_refl fs]

theorem tagsBeq_refl : ∀ ts : List (List Layout), tagsBeq ts ts = true
  | [] => by simp [tagsBeq]
  | t :: ts => by simp [tagsBeq, fieldsBeq_refl t, tagsBeq_refl ts]

theorem fieldsBeq_refl : ∀ fs : List Layout, fieldsBeq fs fs = true
  | [] => by simp [fieldsBeq]
  | f :: fs => by simp [fieldsBeq, layoutBeq_refl f, fieldsBeq_refl fs]

end

/-! ### Interner and module lookup facts -/

theorem keyBeq_refl (k : Sym × Layout) : keyBeq k k = true := by
  unfold keyBeq
  simp [layoutBeq_refl k.2]

theorem findLayoutId_append (ids : LayoutIds) (s : Sym) (l : Layout)
    (h : findLayoutId ids s l = none) :
    findLayoutId (ids ++ [(s, l)]) s l = some ids.length := by
  induction ids with
  | nil =>
    simp [findLayoutId, keyBeq_refl]
  | cons e rest ih =>
    rw [List.cons_append]
    simp only [findLayoutId] at h ⊢
    by_cases hk : keyBeq e (s, l) = true
    · rw [if_pos hk] at h
      exact absurd h (by simp)
    · rw [if_neg hk] at h ⊢
      have hr : findLayoutId rest s l = none := by
        cases hfind : findLayoutId rest s l with
        | none => rfl
        | some v =>
          rw [hfind] at h
          simp at h
      rw [ih hr]
      simp

theorem layout_ids_get_idem (ids : LayoutIds) (s : Sym) (l : Layout) :
    layout_ids_get (layout_ids_get ids s l).1 s l = layout_ids_get ids s l := by
  unfold layout_ids_get
  cases hfind : findLayoutId ids s l with
  | some i => simp [hfind]
  | none =>
    simp only [hfind]
    rw [findLayoutId_append ids s l hfind]

theorem function_name_from_mode_stable (ids : LayoutIds) (if_inc if_dec : String)
    (l : Layout) (m : Mode) :
    function_name_from_mode (function_name_from_mode ids if_inc if_dec l m).1
      if_inc if_dec l m = function_name_from_mode ids if_inc if_dec l m := by
  have h := layout_ids_get_idem ids Sym.DEC l
  cases m <;> simp [function_name_from_mode, h]

theorem get_function_append (m : List (String × HelperBody)) (name : String)
    (b : HelperBody) (h : get_function m name = none) :
    get_function (m ++ [(name, b)]) name = some b := by
  induction m with
  | nil => simp [get_function]
  | cons f rest ih =>
    rw [List.cons_append]
    simp only [get_function] at h ⊢
    by_cases hf : f.1 = name
    · simp [hf] at h
    · rw [if_neg hf] at h ⊢
      exact ih h

/-! ### Behaviour of the shared memoization pattern -/

theorem memoized_emit_hit (st : EmitState) (if_inc if_dec : String) (key : Layout)
    (mode : Mode) (body f : HelperBody)
    (h : get_function st.module
      (function_name_from_mode st.layout_ids if_inc if_dec key mode).2.2 = some f) :
    memoized_emit st if_inc if_dec key mode body =
      ({ layout_ids := (function_name_from_mode st.layout_ids if_inc if_dec key mode).1,
         module := st.module },
       (function_name_from_mode st.layout_ids if_inc if_dec key mode).2.2, f) := by
  simp only [memoized_emit]
  rw [h]

theorem memoized_emit_miss (st : EmitState) (if_inc if_dec : String) (key : Layout)
    (mode : Mode) (body : HelperBody)
    (h : get_function st.module
      (function_name_from_mode st.layout_ids if_inc if_dec key mode).2.2 = none) :
    memoized_emit st if_inc if_dec key mode body =
      ({ layout_ids := (function_name_from_mode st.layout_ids if_inc if_dec key mode).1,
         module := st.module ++
           [((function_name_from_mode st.layout_ids if_inc if_dec key mode).2.2, body)] },
       (function_name_from_mode st.layout_ids if_inc if_dec key mode).2.2, body) := by
  simp only [memoized_emit]
  rw [h]

theorem memoized_emit_idem (st : EmitState) (if_inc if_dec : String) (key : Layout)
    (mode : Mode) (body : HelperBody) :
    memoized_emit (memoized_emit st if_inc if_dec key mode body).1
      if_inc if_dec key mode body = memoized_emit st if_inc if_dec key mode body := by
  have hs := function_name_from_mode_stable st.layout_ids if_inc if_dec key mode
  cases h : get_function st.module
      (function_name_from_mode st.layout_ids if_inc if_dec key mode).2.2 with
  | some f =>
    rw [memoized_emit_hit st if_inc if_dec key mode body f h]
    rw [memoized_emit_hit _ if_inc if_dec key mode body f (by rw [hs]; exact h)]
    rw [hs]
  | none =>
    rw [memoized_emit_miss st if_inc if_dec key mode body h]
    rw [memoized_emit_hit _ if_inc if_dec key mode body body
      (by rw [hs]; exact get_function_append st.module _ body h)]
    rw [hs]

theorem memoized_emit_second (st : EmitState) (if_inc if_dec : String) (key : Layout)
    (mode : Mode) (body1 body2 : HelperBody)
    (h : get_function st.module
      (function_name_from_mode st.layout_ids if_inc if_dec key mode).2.2 = none) :
    memoized_emit (memoized_emit st if_inc if_dec key mode body1).1
      if_inc if_dec key mode body2 = memoized_emit st if_inc if_dec key mode body1 := by
  have hs := function_name_from_mode_stable st.layout_ids if_inc if_dec key mode
  rw [memoized_emit_miss st if_inc if_dec key mode body1 h]
  rw [memoized_emit_hit _ if_inc if_dec key mode body2 body1
    (by rw [hs]; exact get_function_append st.module _ body1 h)]
  rw [hs]

/-! ### C8: increment and decrement helper names share their id suffix -/

/-- C8: for every layout, the helper names generated in increment mode and
in decrement mode carry the same numeric layout-id suffix, because
`function_name_from_mode` always interns the layout id under the DEC symbol
and only re-stringifies it under the INC or DEC symbol — in either request
order. -/
theorem C8_inc_dec_same_suffix (layout_ids : LayoutIds) (if_inc if_dec : String)
    (layout : Layout) :
    ∃ n : Nat,
      (function_name_from_mode layout_ids if_inc if_dec layout Mode.Inc).2.2 =
        to_symbol_string Sym.INC n ∧
      (function_name_from_mode
          (function_name_from_mode layout_ids if_inc if_dec layout Mode.Inc).1
          if_inc if_dec layout Mode.Dec).2.2 = to_symbol_string Sym.DEC n ∧
      (function_name_from_mode layout_ids if_inc if_dec layout Mode.Dec).2.2 =
        to_symbol_string Sym.DEC n ∧
      (function_name_from_mode
          (function_name_from_mode layout_ids if_inc if_dec layout Mode.Dec).1
          if_inc if_dec layout Mode.Inc).2.2 = to_symbol_string Sym.INC n := by
  have hidem := layout_ids_get_idem layout_ids Sym.DEC layout
  refine ⟨(layout_ids_get layout_ids Sym.DEC layout).2, ?_, ?_, ?_, ?_⟩
  · simp [function_name_from_mode]
  · simp [function_name_from_mode, hidem]
  · simp [function_name_from_mode]
  · simp [function_name_from_mode, hidem]

/-! ### C3: at most one helper per name; later requests reuse -/

/-- C3: for a layout and mode, repeated emission requests add at most one
function with the helper's name to the module: a request finding the name
present returns the existing function value and leaves the module untouched;
a request on a fresh name appends exactly the one new function; and an
immediately repeated request is a no-op returning the first result — for
both the `build_rec_union` and the `modify_refcount_list` emitters. -/
theorem C3_memoized_single_emission (st : EmitState) (mode : Mode)
    (fields : List (List Layout)) (is_nullable : Bool) (layout element_layout : Layout) :
    (build_rec_union (build_rec_union st mode fields is_nullable).1 mode fields
        is_nullable = build_rec_union st mode fields is_nullable) ∧
    (get_function st.module (rec_union_fn_name st fields mode) = none →
      (build_rec_union st mode fields is_nullable).1.module =
        st.module ++ [(rec_union_fn_name st fields mode,
          HelperBody.recUnionHelper (build_rec_union_help mode fields is_nullable))]) ∧
    (∀ f, get_function st.module (rec_union_fn_name st fields mode) = some f →
      (build_rec_union st mode fields is_nullable).1.module = st.module ∧
      (build_rec_union st mode fields is_nullable).2.2 = f) ∧
    (modify_refcount_list (modify_refcount_list st mode layout element_layout).1
        mode layout element_layout = modify_refcount_list st mode layout element_layout) ∧
    (get_function st.module (list_fn_name st layout mode) = none →
      (modify_refcount_list st mode layout element_layout).1.module =
        st.module ++ [(list_fn_name st layout mode, HelperBody.listHelper element_layout)]) ∧
    (∀ f, get_function st.module (list_fn_name st layout mode) = some f →
      (modify_refcount_list st mode layout element_layout).1.module = st.module ∧
      (modify_refcount_list st mode layout element_layout).2.2 = f) := by
  refine ⟨?_, ?_, ?_, ?_, ?_, ?_⟩
  · simp only [build_rec_union]
    exact memoized_emit_idem st _ _ _ mode _
  · intro h
    simp only [rec_union_fn_name] at h ⊢
    simp only [build_rec_union]
    rw [memoized_emit_miss st _ _ _ mode _ h]
  · intro f h
    simp only [rec_union_fn_name] at h
    simp only [build_rec_union]
    rw [memoized_emit_hit st _ _ _ mode _ f h]
    exact ⟨rfl, rfl⟩
  · simp only [modify_refcount_list]
    exact memoized_emit_idem st _ _ _ mode _
  · intro h
    simp only [list_fn_name] at h ⊢
    simp only [modify_refcount_list]
    rw [memoized_emit_miss st _ _ _ mode _ h]
  · intro f h
    simp only [list_fn_name] at h
    simp only [modify_refcount_list]
    rw [memoized_emit_hit st _ _ _ mode _ f h]
    exact ⟨rfl, rfl⟩

/-- Witness for C3: from an empty module, the first request for the
cons-cell-like recursive union helper appends exactly one function, and the
first request for a list helper does likewise. -/
theorem C3_memoized_single_emission_witness :
    (build_rec_union { layout_ids := [], module := [] } Mode.Dec
        [[Layout.recursivePointer]] false).1.module =
      [] ++ [(rec_union_fn_name { layout_ids := [], module := [] }
          [[Layout.recursivePointer]] Mode.Dec,
        HelperBody.recUnionHelper
          (build_rec_union_help Mode.Dec [[Layout.recursivePointer]] false))] ∧
    (modify_refcount_list { layout_ids := [], module := [] } Mode.Dec
        (Layout.builtin (RBuiltin.list MemoryMode.refcounted (Layout.builtin RBuiltin.str)))
        (Layout.builtin RBuiltin.str)).1.module =
      [] ++ [(list_fn_name { layout_ids := [], module := [] }
          (Layout.builtin (RBuiltin.list MemoryMode.refcounted (Layout.builtin RBuiltin.str)))
          Mode.Dec,
        HelperBody.listHelper (Layout.builtin RBuiltin.str))] :=
  ⟨(C3_memoized_single_emission { layout_ids := [], module := [] } Mode.Dec
      [[Layout.recursivePointer]] false (Layout.builtin RBuiltin.str)
      (Layout.builtin RBuiltin.str)).2.1 rfl,
   (C3_memoized_single_emission { layout_ids := [], module := [] } Mode.Dec
      [[Layout.recursivePointer]] false
      (Layout.builtin (RBuiltin.list MemoryMode.refcounted (Layout.builtin RBuiltin.str)))
      (Layout.builtin RBuiltin.str)).2.2.2.2.1 rfl⟩

/-! ### C10: the rec-union memoization key ignores nullability -/

/-- C10: all four recursive union variants memoize their helper under
`Layout::Union(UnionLayout::Recursive(fields))` built from the derived tag
field layouts alone — nullability is no part of the key — so two distinct
recursive-union layouts with the same derived tag field lists resolve to the
same helper name and the same single emitted function, whose body (null
check included) is the one built for whichever layout was requested first. -/
theorem C10_memo_key_ignores_nullability (st : EmitState) (mode : Mode)
    (u1 u2 : UnionLayout) (f1 f2 : List (List Layout)) (b1 b2 : Bool)
    (h1 : rec_union_fields_and_nullable u1 = some (f1, b1))
    (h2 : rec_union_fields_and_nullable u2 = some (f2, b2))
    (hne : u1 ≠ u2) (hf : f2 = f1)
    (hfresh : get_function st.module (rec_union_fn_name st f1 mode) = none) :
    (build_rec_union (build_rec_union st mode f1 b1).1 mode f2 b2).2.1 =
      (build_rec_union st mode f1 b1).2.1 ∧
    (build_rec_union (build_rec_union st mode f1 b1).1 mode f2 b2).1 =
      (build_rec_union st mode f1 b1).1 ∧
    (build_rec_union (build_rec_union st mode f1 b1).1 mode f2 b2).2.2 =
      (build_rec_union st mode f1 b1).2.2 ∧
    (build_rec_union st mode f1 b1).2.2 =
      HelperBody.recUnionHelper (build_rec_union_help mode f1 b1) ∧
    (build_rec_union_help mode f1 b1).hasNullCheck = b1 := by
  subst hf
  simp only [rec_union_fn_name] at hfresh
  simp only [build_rec_union]
  rw [memoized_emit_second st _ _ _ mode
    (HelperBody.recUnionHelper (build_rec_union_help mode f2 b1))
    (HelperBody.recUnionHelper (build_rec_union_help mode f2 b2)) hfresh]
  refine ⟨rfl, rfl, rfl, ?_, ?_⟩
  · rw [memoized_emit_miss st _ _ _ mode _ hfresh]
  · simp [build_rec_union_help]

/-- Witness for C10: a `NullableWrapped` layout and a `Recursive` layout over
the same single cons-like tag resolve to the same helper; the body emitted by
the first (nullable) request — null check included — serves both. -/
theorem C10_memo_key_ignores_nullability_witness :
    (build_rec_union
        (build_rec_union { layout_ids := [], module := [] } Mode.Dec
          [[Layout.recursivePointer]] true).1
        Mode.Dec [[Layout.recursivePointer]] false).2.2 =
      (build_rec_union { layout_ids := [], module := [] } Mode.Dec
        [[Layout.recursivePointer]] true).2.2 ∧
    (build_rec_union { layout_ids := [], module := [] } Mode.Dec
        [[Layout.recursivePointer]] true).2.2 =
      HelperBody.recUnionHelper
        (build_rec_union_help Mode.Dec [[Layout.recursivePointer]] true) ∧
    (build_rec_union_help Mode.Dec [[Layout.recursivePointer]] true).hasNullCheck = true := by
  have h := C10_memo_key_ignores_nullability { layout_ids := [], module := [] } Mode.Dec
    (UnionLayout.nullableWrapped 0 [[Layout.recursivePointer]])
    (UnionLayout.recursive [[Layout.recursivePointer]])
    [[Layout.recursivePointer]] [[Layout.recursivePointer]] true false
    rfl rfl (fun heq => UnionLayout.noConfusion heq) rfl rfl
  exact ⟨h.2.2.1, h.2.2.2.1, h.2.2.2.2⟩

/-! ### The compile-time aborts -/

theorem isRecursivePointer_iff (fl : Layout) :
    isRecursivePointer fl = true ↔ fl = Layout.recursivePointer := by
  cases fl <;> simp [isRecursivePointer]

theorem tag_contains_refcounted_of_mem (fls : List Layout)
    (h : Layout.recursivePointer ∈ fls) : tag_contains_refcounted fls = true := by
  unfold tag_contains_refcounted
  rw [List.any_eq_true]
  exact ⟨Layout.recursivePointer, h, by simp [Layout.is_refcounted]⟩

theorem unionCaseFields_error (i : Nat) (fls : List Layout)
    (h : Layout.recursivePointer ∈ fls) :
    unionCaseFields i fls =
      Except.error "non-recursive tag unions cannot contain naked recursion pointers!" := by
  induction fls generalizing i with
  | nil => cases h
  | cons hd tl ih =>
    by_cases hb : isRecursivePointer hd = true
    · simp [unionCaseFields, hb]
    · have htl : Layout.recursivePointer ∈ tl := by
        rcases List.mem_cons.mp h with h1 | h2
        · exact absurd ((isRecursivePointer_iff hd).mpr h1.symm) hb
        · exact h2
      simp only [unionCaseFields, if_neg hb]
      rw [ih (i + 1) htl]
      rfl

theorem unionCaseFields_ok (i : Nat) (fls : List Layout)
    (h : Layout.recursivePointer ∉ fls) :
    ∃ v, unionCaseFields i fls = Except.ok v := by
  induction fls generalizing i with
  | nil => exact ⟨[], rfl⟩
  | cons hd tl ih =>
    have hhd : ¬ isRecursivePointer hd = true := by
      intro hb
      exact h (((isRecursivePointer_iff hd).mp hb) ▸ List.mem_cons_self hd tl)
    have htl : Layout.recursivePointer ∉ tl := fun hm => h (List.mem_cons_of_mem _ hm)
    obtain ⟨v, hv⟩ := ih (i + 1) htl
    refine ⟨if hd.contains_refcounted then i :: v else v, ?_⟩
    simp only [unionCaseFields, if_neg hhd]
    rw [hv]
    rfl

theorem unionCases_error (t : Nat) (tags : List (List Layout))
    (h : ∃ fls ∈ tags, Layout.recursivePointer ∈ fls) :
    unionCases t tags =
      Except.error "non-recursive tag unions cannot contain naked recursion pointers!" := by
  induction tags generalizing t with
  | nil =>
    obtain ⟨fls, hmem, _⟩ := h
    cases hmem
  | cons hd tl ih =>
    obtain ⟨fls, hmem, hrp⟩ := h
    rcases List.mem_cons.mp hmem with heq | hmemtl
    · subst heq
      have hc : tag_contains_refcounted fls = true := tag_contains_refcounted_of_mem fls hrp
      simp only [unionCases, hc, Bool.not_true, Bool.false_eq_true, if_false]
      rw [unionCaseFields_error 0 fls hrp]
      rfl
    · by_cases hc : tag_contains_refcounted hd = true
      · simp only [unionCases, hc, Bool.not_true, Bool.false_eq_true, if_false]
        by_cases hrphd : Layout.recursivePointer ∈ hd
        · rw [unionCaseFields_error 0 hd hrphd]
          rfl
        · obtain ⟨v, hv⟩ := unionCaseFields_ok 0 hd hrphd
          rw [hv]
          have hrec := ih (t + 1) ⟨fls, hmemtl, hrp⟩
          show (Except.ok v >>= fun fieldIdxs =>
            unionCases (t + 1) tl >>= fun more => Except.ok ((t, fieldIdxs) :: more)) = _
          rw [hrec]
          rfl
      · have hc2 : tag_contains_refcounted hd = false := by
          revert hc
          cases tag_contains_refcounted hd <;> simp
        simp only [unionCases, hc2, Bool.not_false, if_true]
        exact ih (t + 1) ⟨fls, hmemtl, hrp⟩

/-- C9: the emitter aborts — producing no helper — on each compile-time
programmer error: a `ptr_bytes` outside 1, 2, 4, 8; a `RecursivePointer`
layout dispatched under `WhenRecursive::Unreachable`; and a non-recursive
union with a variant containing a naked `RecursivePointer` (the abort
propagating through the dispatcher for any context and any fuel). -/
theorem C9_compile_time_errors :
    (∀ ptr_bytes : Nat,
      ¬(ptr_bytes = 1 ∨ ptr_bytes = 2 ∨ ptr_bytes = 4 ∨ ptr_bytes = 8) →
      refcount_1 ptr_bytes = none) ∧
    (∀ fuel : Nat,
      modify_refcount_layout_build_function fuel WhenRecursive.unreachable
        Layout.recursivePointer =
        Except.error "recursion pointers should never be hashed directly") ∧
    (∀ tags fls, fls ∈ tags → Layout.recursivePointer ∈ fls →
      modify_refcount_union_help tags =
        Except.error "non-recursive tag unions cannot contain naked recursion pointers!" ∧
      ∀ fuel when_recursive,
        modify_refcount_layout_build_function fuel when_recursive
          (Layout.union (UnionLayout.nonRecursive tags)) =
        Except.error "non-recursive tag unions cannot contain naked recursion pointers!") := by
  refine ⟨?_, ?_, ?_⟩
  · intro pb h
    unfold refcount_1
    split <;> simp_all
  · intro fuel
    cases fuel <;> rfl
  · intro tags fls hmem hrp
    have herr : modify_refcount_union_help tags =
        Except.error "non-recursive tag unions cannot contain naked recursion pointers!" :=
      unionCases_error 0 tags ⟨fls, hmem, hrp⟩
    refine ⟨herr, ?_⟩
    intro fuel when_recursive
    cases fuel <;>
      · simp only [modify_refcount_layout_build_function]
        rw [herr]
        rfl

/-- Witness for C9: 3-byte pointers are rejected, a recursion pointer under
the unreachable context aborts the dispatcher, and a one-variant
non-recursive union holding a naked recursion pointer aborts the union body
builder. -/
theorem C9_compile_time_errors_witness :
    refcount_1 3 = none ∧
    modify_refcount_layout_build_function 2 WhenRecursive.unreachable
      Layout.recursivePointer =
      Except.error "recursion pointers should never be hashed directly" ∧
    modify_refcount_union_help [[Layout.recursivePointer]] =
      Except.error "non-recursive tag unions cannot contain naked recursion pointers!" :=
  ⟨C9_compile_time_errors.1 3 (by decide),
   C9_compile_time_errors.2.1 2,
   (C9_compile_time_errors.2.2 [[Layout.recursivePointer]] [Layout.recursivePointer]
      (by simp) (by simp)).1⟩

/-! ### The field scan of a recursive-union case -/

theorem collectFields_cons_loads (i : Nat) (hd : Layout) (tl : List Layout) :
    (collectFields i (hd :: tl)).1 =
      if isRecursivePointer hd then REvent.loadRecPointer i :: (collectFields (i + 1) tl).1
      else if hd.contains_refcounted then REvent.loadField i :: (collectFields (i + 1) tl).1
      else (collectFields (i + 1) tl).1 := by
  simp only [collectFields]
  by_cases hb : isRecursivePointer hd = true
  · rw [if_pos hb, if_pos hb]
  · rw [if_neg hb, if_neg hb]
    split <;> rfl

theorem collectFields_cons_nonrecs (i : Nat) (hd : Layout) (tl : List Layout) :
    (collectFields i (hd :: tl)).2.1 =
      if isRecursivePointer hd then (collectFields (i + 1) tl).2.1
      else if hd.contains_refcounted then i :: (collectFields (i + 1) tl).2.1
      else (collectFields (i + 1) tl).2.1 := by
  simp only [collectFields]
  by_cases hb : isRecursivePointer hd = true
  · rw [if_pos hb, if_pos hb]
  · rw [if_neg hb, if_neg hb]
    split <;> rfl

theorem collectFields_cons_recs (i : Nat) (hd : Layout) (tl : List Layout) :
    (collectFields i (hd :: tl)).2.2 =
      if isRecursivePointer hd then i :: (collectFields (i + 1) tl).2.2
      else (collectFields (i + 1) tl).2.2 := by
  simp only [collectFields]
  by_cases hb : isRecursivePointer hd = true
  · rw [if_pos hb, if_pos hb]
  · rw [if_neg hb, if_neg hb]
    split <;> rfl

theorem collectFields_loads_shape : ∀ (fls : List Layout) (i : Nat),
    ∀ e ∈ (collectFields i fls).1,
      (∃ j, e = REvent.loadRecPointer j) ∨ (∃ j, e = REvent.loadField j)
  | [], _, e, he => absurd he (by simp [collectFields])
  | hd :: tl, i, e, he => by
    rw [collectFields_cons_loads] at he
    by_cases hb : isRecursivePointer hd = true
    · rw [if_pos hb] at he
      rcases List.mem_cons.mp he with h | h
      · exact Or.inl ⟨i, h⟩
      · exact collectFields_loads_shape tl (i + 1) e h
    · rw [if_neg hb] at he
      by_cases hc : hd.contains_refcounted = true
      · rw [if_pos hc] at he
        rcases List.mem_cons.mp he with h | h
        · exact Or.inr ⟨i, h⟩
        · exact collectFields_loads_shape tl (i + 1) e h
      · rw [if_neg hc] at he
        exact collectFields_loads_shape tl (i + 1) e he

theorem collectFields_recs_mem : ∀ (fls : List Layout) (i j : Nat),
    j ∈ (collectFields i fls).2.2 ↔
      ∃ k, fls[k]? = some Layout.recursivePointer ∧ j = i + k
  | [], i, j => by simp [collectFields]
  | hd :: tl, i, j => by
    rw [collectFields_cons_recs]
    by_cases hb : isRecursivePointer hd = true
    · have hhd : hd = Layout.recursivePointer := (isRecursivePointer_iff hd).mp hb
      subst hhd
      rw [if_pos hb]
      constructor
      · intro hmem
        rcases List.mem_cons.mp hmem with h | h
        · exact ⟨0, by simp, by omega⟩
        · obtain ⟨k, hk, hj⟩ := (collectFields_recs_mem tl (i + 1) j).mp h
          exact ⟨k + 1, by simpa using hk, by omega⟩
      · rintro ⟨k, hk, hj⟩
        cases k with
        | zero =>
          exact List.mem_cons.mpr (Or.inl (by omega))
        | succ k2 =>
          refine List.mem_cons.mpr (Or.inr ?_)
          refine (collectFields_recs_mem tl (i + 1) j).mpr ⟨k2, ?_, by omega⟩
          simpa using hk
    · rw [if_neg hb]
      have hne : hd ≠ Layout.recursivePointer :=
        fun he => hb ((isRecursivePointer_iff hd).mpr he)
      rw [collectFields_recs_mem tl (i + 1) j]
      constructor
      · rintro ⟨k, hk, hj⟩
        exact ⟨k + 1, by simpa using hk, by omega⟩
      · rintro ⟨k, hk, hj⟩
        cases k with
        | zero =>
          exfalso
          simp only [List.getElem?_cons_zero, Option.some.injEq] at hk
          exact hne hk
        | succ k2 =>
          exact ⟨k2, by simpa using hk, by omega⟩

theorem collectFields_nonrecs_mem : ∀ (fls : List Layout) (i j : Nat),
    j ∈ (collectFields i fls).2.1 ↔
      ∃ k fl, fls[k]? = some fl ∧ fl ≠ Layout.recursivePointer ∧
        fl.contains_refcounted = true ∧ j = i + k
  | [], i, j => by simp [collectFields]
  | hd :: tl, i, j => by
    rw [collectFields_cons_nonrecs]
    by_cases hb : isRecursivePointer hd = true
    · have hhd : hd = Layout.recursivePointer := (isRecursivePointer_iff hd).mp hb
      subst hhd
      rw [if_pos hb]
      rw [collectFields_nonrecs_mem tl (i + 1) j]
      constructor
      · rintro ⟨k, fl, hk, hfl, hc, hj⟩
        exact ⟨k + 1, fl, by simpa using hk, hfl, hc, by omega⟩
      · rintro ⟨k, fl, hk, hfl, hc, hj⟩
        cases k with
        | zero =>
          exfalso
          simp only [List.getElem?_cons_zero, Option.some.injEq] at hk
          exact hfl hk.symm
        | succ k2 =>
          exact ⟨k2, fl, by simpa using hk, hfl, hc, by omega⟩
    · rw [if_neg hb]
      have hne : hd ≠ Layout.recursivePointer :=
        fun he => hb ((isRecursivePointer_iff hd).mpr he)
      by_cases hc : hd.contains_refcounted = true
      · rw [if_pos hc]
        constructor
        · intro hmem
          rcases List.mem_cons.mp hmem with h | h
          · exact ⟨0, hd, by simp, hne, hc, by omega⟩
          · obtain ⟨k, fl, hk, hfl, hcf, hj⟩ :=
              (collectFields_nonrecs_mem tl (i + 1) j).mp h
            exact ⟨k + 1, fl, by simpa using hk, hfl, hcf, by omega⟩
        · rintro ⟨k, fl, hk, hfl, hcf, hj⟩
          cases k with
          | zero =>
            exact List.mem_cons.mpr (Or.inl (by omega))
          | succ k2 =>
            refine List.mem_cons.mpr (Or.inr ?_)
            exact (collectFields_nonrecs_mem tl (i + 1) j).mpr
              ⟨k2, fl, by simpa using hk, hfl, hcf, by omega⟩
      · rw [if_neg hc]
        rw [collectFields_nonrecs_mem tl (i + 1) j]
        constructor
        · rintro ⟨k, fl, hk, hfl, hcf, hj⟩
          exact ⟨k + 1, fl, by simpa using hk, hfl, hcf, by omega⟩
        · rintro ⟨k, fl, hk, hfl, hcf, hj⟩
          cases k with
          | zero =>
            exfalso
            simp only [List.getElem?_cons_zero, Option.some.injEq] at hk
            subst hk
            exact hc hcf
          | succ k2 =>
            exact ⟨k2, fl, by simpa using hk, hfl, hcf, by omega⟩

theorem collectFields_load_rec_mem : ∀ (fls : List Layout) (i k : Nat),
    fls[k]? = some Layout.recursivePointer →
    REvent.loadRecPointer (i + k) ∈ (collectFields i fls).1
  | [], _, k, h => by simp at h
  | hd :: tl, i, k, h => by
    rw [collectFields_cons_loads]
    cases k with
    | zero =>
      simp only [List.getElem?_cons_zero, Option.some.injEq] at h
      subst h
      rw [if_pos (by simp [isRecursivePointer])]
      exact List.mem_cons.mpr (Or.inl (by simp))
    | succ k2 =>
      simp only [List.getElem?_cons_succ] at h
      have hmem := collectFields_load_rec_mem tl (i + 1) k2 h
      have harith : i + (k2 + 1) = i + 1 + k2 := by omega
      rw [harith]
      by_cases hb : isRecursivePointer hd = true
      · rw [if_pos hb]
        exact List.mem_cons_of_mem _ hmem
      · rw [if_neg hb]
        by_cases hc : hd.contains_refcounted = true
        · rw [if_pos hc]
          exact List.mem_cons_of_mem _ hmem
        · rw [if_neg hc]
          exact hmem

theorem collectFields_load_field_mem : ∀ (fls : List Layout) (i k : Nat) (fl : Layout),
    fls[k]? = some fl → fl ≠ Layout.recursivePointer → fl.contains_refcounted = true →
    REvent.loadField (i + k) ∈ (collectFields i fls).1
  | [], _, k, fl, h, _, _ => by simp at h
  | hd :: tl, i, k, fl, h, hne, hc => by
    rw [collectFields_cons_loads]
    cases k with
    | zero =>
      simp only [List.getElem?_cons_zero, Option.some.injEq] at h
      subst h
      rw [if_neg (fun hb => hne ((isRecursivePointer_iff hd).mp hb)), if_pos hc]
      exact List.mem_cons.mpr (Or.inl (by simp))
    | succ k2 =>
      simp only [List.getElem?_cons_succ] at h
      have hmem := collectFields_load_field_mem tl (i + 1) k2 fl h hne hc
      have harith : i + (k2 + 1) = i + 1 + k2 := by omega
      rw [harith]
      by_cases hb : isRecursivePointer hd = true
      · rw [if_pos hb]
        exact List.mem_cons_of_mem _ hmem
      · rw [if_neg hb]
        by_cases hchd : hd.contains_refcounted = true
        · rw [if_pos hchd]
          exact List.mem_cons_of_mem _ hmem
        · rw [if_neg hchd]
          exact hmem

/-! ### C2: the emission sequence of recursive-union helpers -/

/-- C2: for each of the four recursive union variants the emitted helper
follows the specified sequence — nullable variants get a null-test-and-return
prologue; each case with refcounted fields consists of Phase A (loads of all
recursive-pointer fields and all refcounted non-recursive fields), Phase B
(the refcount modification of the current cell), Phase C (the deferred
non-recursive children) and Phase D (calls back into this same helper on each
deferred recursive pointer, with the tail-call flag set to true). -/
theorem C2_rec_union_emission (u : UnionLayout) (mode : Mode)
    (fields : List (List Layout)) (is_nullable : Bool)
    (h : rec_union_fields_and_nullable u = some (fields, is_nullable)) :
    (isNullableVariant u = true →
      (build_rec_union_help mode fields is_nullable).hasNullCheck = true) ∧
    (∀ c ∈ (build_rec_union_help mode fields is_nullable).tagCases,
      ∃ fls, fields[c.1]? = some fls ∧ c.2 = rec_union_case_events fls ∧
        ∃ (loads : List REvent) (nonrec_idx rec_idx : List Nat),
          rec_union_case_events fls =
            loads ++ REvent.selfModify ::
              (nonrec_idx.map REvent.modifyChild ++
               rec_idx.map (fun idx => REvent.selfTailCall idx true)) ∧
          (∀ e ∈ loads,
            (∃ j, e = REvent.loadRecPointer j) ∨ (∃ j, e = REvent.loadField j)) ∧
          (∀ j, j ∈ rec_idx ↔ fls[j]? = some Layout.recursivePointer) ∧
          (∀ j, j ∈ nonrec_idx ↔ ∃ fl, fls[j]? = some fl ∧
            fl ≠ Layout.recursivePointer ∧ fl.contains_refcounted = true) ∧
          (∀ j, fls[j]? = some Layout.recursivePointer →
            REvent.loadRecPointer j ∈ loads) ∧
          (∀ j fl, fls[j]? = some fl → fl ≠ Layout.recursivePointer →
            fl.contains_refcounted = true → REvent.loadField j ∈ loads)) := by
  constructor
  · intro hnul
    have hb : is_nullable = true := by
      cases u with
      | nullableWrapped nid tags =>
        simp only [rec_union_fields_and_nullable, Option.some.injEq, Prod.mk.injEq] at h
        exact h.2.symm
      | nullableUnwrapped nid ofs =>
        simp only [rec_union_fields_and_nullable, Option.some.injEq, Prod.mk.injEq] at h
        exact h.2.symm
      | nonRecursive tags => simp [isNullableVariant] at hnul
      | recursive tags => simp [isNullableVariant] at hnul
      | nonNullableUnwrapped fs => simp [isNullableVariant] at hnul
    simp [build_rec_union_help, hb]
  · intro c hc
    simp only [build_rec_union_help] at hc
    rw [List.mem_reverse] at hc
    obtain ⟨p, hp, hpc⟩ := List.mem_map.mp hc
    obtain ⟨hpmem, _⟩ := List.mem_filter.mp hp
    have hgetp : fields[p.1]? = some p.2 := List.mem_enum_iff_getElem?.mp hpmem
    subst hpc
    refine ⟨p.2, hgetp, rfl, (collectFields 0 p.2).1, (collectFields 0 p.2).2.1,
      (collectFields 0 p.2).2.2, rfl, collectFields_loads_shape p.2 0, ?_, ?_, ?_, ?_⟩
    · intro j
      rw [collectFields_recs_mem p.2 0 j]
      constructor
      · rintro ⟨k, hk, hj⟩
        rwa [hj, Nat.zero_add]
      · intro hj
        exact ⟨j, hj, by omega⟩
    · intro j
      rw [collectFields_nonrecs_mem p.2 0 j]
      constructor
      · rintro ⟨k, fl, hk, hfl, hcf, hj⟩
        exact ⟨fl, by rwa [hj, Nat.zero_add], hfl, hcf⟩
      · rintro ⟨fl, hk, hfl, hcf⟩
        exact ⟨j, fl, hk, hfl, hcf, by omega⟩
    · intro j hj
      have := collectFields_load_rec_mem p.2 0 j hj
      simpa using this
    · intro j fl h1 h2 h3
      have := collectFields_load_field_mem p.2 0 j fl h1 h2 h3
      simpa using this

/-- Witness for C2: a `NullableUnwrapped` cons-cell-style layout gets a
helper with the null check, whose single case loads the recursive pointer,
modifies the current cell, and ends in a self tail call with the tail flag
set. -/
theorem C2_rec_union_emission_witness :
    (build_rec_union_help Mode.Dec [[Layout.recursivePointer]] true).hasNullCheck = true ∧
    (build_rec_union_help Mode.Dec [[Layout.recursivePointer]] true).tagCases =
      [(0, [REvent.loadRecPointer 0, REvent.selfModify, REvent.selfTailCall 0 true])] :=
  ⟨(C2_rec_union_emission
      (UnionLayout.nullableUnwrapped false [Layout.builtin RBuiltin.str, Layout.recursivePointer])
      Mode.Dec [[Layout.recursivePointer]] true rfl).1 rfl,
   by decide⟩

end RocRefcount
